import Mathlib

/-!
# Verification of the `CaspianData` client-side data layer

Shallow embedding of the data-access/filtering module `CaspianData`
(`src/women/js/home.js`, second concatenated unit) of the Caspian Co
catalog site, together with proofs about its derived views.

Modelling conventions:

* JavaScript strings are `List Char`.  An absent (`undefined`) string field
  and the empty string are both falsy in JS (`!product.publish_at`,
  `product.sub_category && …`), so both are modelled as `[]`.
* JSON numbers used as flags (`active`, `featured`) are `Int`, compared with
  strict equality against `1` exactly as the code does (`product.active === 1`).
* `new Date(s)` never throws for a malformed string: it produces an
  *Invalid Date* whose time value is NaN (ECMA-262, Date constructor /
  `Date.parse`).  We model the date parser as an environment function
  `parseDate : List Char → Option Int` returning the epoch-milliseconds time
  value, `none` standing for NaN.  Any relational comparison against NaN is
  `false`, which the embedding reflects at each use site.  `Date.parse` is
  implementation-defined outside the ISO format, which is why the parser is a
  parameter of the environment rather than a fixed function.
* `Date.now`/`getTimezoneOffset` are environment numbers `nowMs`/`tzOffsetMin`.
* `Array.prototype.sort` is required to be stable (ECMA-262 2019+); with a
  consistent comparator its output is the unique stable sort, so Mathlib's
  stable `List.insertionSort` models it exactly.  When a comparator returns
  NaN (invalid dates) the order is implementation-defined; the model then
  fixes one behaviour (time value `0`), and claims about ordering are stated
  under the hypothesis that every date parses.
* A JS `Set` built only to be queried with `has` is modelled by the list of
  inserted elements queried with `List.contains`.
-/

namespace Caspian

/-- A product record of `womenproducts.json`, restricted to the fields the
data layer reads (display-only fields such as `price`, `images`, `rating`
are never inspected by `CaspianData` and are omitted). -/
structure Product where
  id : List Char
  name : List Char
  description : List Char
  category : List Char
  sub_category : List Char
  tags : List (List Char)
  active : Int
  featured : Int
  publish_at : List Char
  added_date : List Char
deriving DecidableEq

/-- A category record of `categories.json` (fields read by the data layer). -/
structure Category where
  id : List Char
  label : List Char
deriving DecidableEq

/-- The `home.json` payload.  `CaspianData` never inspects it (it is only
stored and returned by `getHomeData`), so it is modelled as raw text. -/
structure HomeData where
  raw : List Char
deriving DecidableEq

/-- The browser environment the data layer reads: `Date.now()` (`nowMs`),
`Date.prototype.getTimezoneOffset()` (`tzOffsetMin`), and the
implementation-defined `Date` string parser (`parseDate`, `none` = NaN). -/
structure Env where
  nowMs : Int
  tzOffsetMin : Int
  parseDate : List Char → Option Int

/-- The module-level cache of `CaspianData`:
`productsData`, `categoriesData`, `homeData`, `dataLoaded`. -/
structure DataState where
  productsData : List Product
  categoriesData : List Category
  homeData : Option HomeData
  dataLoaded : Bool
deriving DecidableEq

/-- `const istOffset = 5.5 * 60 * 60 * 1000` — 5 h 30 min in milliseconds. -/
def istOffsetMs : Int := 19800000

/-- `getCurrentIST`: `now.getTime() + now.getTimezoneOffset() * 60000`
followed by adding the IST offset. -/
def getCurrentIST (e : Env) : Int :=
  e.nowMs + e.tzOffsetMin * 60000 + istOffsetMs

/-- `isProductPublished`.  `!product.publish_at` is true for an absent or
empty string (both `[]` here).  Otherwise the code builds
`new Date(product.publish_at)` and returns `currentIST >= publishTime`.
The `Date` constructor never throws on a malformed string — it yields an
Invalid Date with NaN time value, and `currentIST >= NaN` evaluates to
`false` — so the `catch` branch (`return true`) of the source is
unreachable and the `none` case returns `false`. -/
def isProductPublished (e : Env) (product : Product) : Bool :=
  if product.publish_at.isEmpty then
    true
  else
    match e.parseDate product.publish_at with
    | some publishTime => decide (publishTime ≤ getCurrentIST e)
    | none => false

/-- `loadAllData`.  The arguments model the network round: `resOk` are the
three `Response.ok` flags; `jsonP`, `jsonC`, `jsonH` are the results of the
three `res.json()` calls (`none` = the promise rejected).  The result is
`(returned value, final cache state, whether any fetch was performed)`.
When a later `json()` call rejects, the earlier assignments to the cache
have already happened and `dataLoaded` stays `false`, exactly as in the
source's sequential `await` assignments inside the `try` block. -/
def loadAllData (st : DataState) (resOk : Bool × Bool × Bool)
    (jsonP : Option (List Product)) (jsonC : Option (List Category))
    (jsonH : Option HomeData) : Bool × DataState × Bool :=
  if st.dataLoaded then
    (true, st, false)
  else if !(resOk.1 && resOk.2.1 && resOk.2.2) then
    (false, st, true)
  else
    match jsonP with
    | none => (false, st, true)
    | some ps =>
      let st1 := { st with productsData := ps }
      match jsonC with
      | none => (false, st1, true)
      | some cs =>
        let st2 := { st1 with categoriesData := cs }
        match jsonH with
        | none => (false, st2, true)
        | some h =>
          (true, { st2 with homeData := some h, dataLoaded := true }, true)

/-- `getAllActiveProducts`: filter of the catalog by
`product.active === 1 && isProductPublished(product)`. -/
def getAllActiveProducts (e : Env) (productsData : List Product) : List Product :=
  productsData.filter fun product =>
    product.active == 1 && isProductPublished e product

/-- `getProductById`: `find` the first product with the given id, then
return `null` unless it is active and published. -/
def getProductById (e : Env) (productsData : List Product) (id : List Char) :
    Option Product :=
  match productsData.find? (fun p => p.id == id) with
  | none => none
  | some product =>
    if product.active != 1 || !isProductPublished e product then none
    else some product

/-- `arr.slice(0, stop)` on an array modelled as a list: a negative `stop`
counts from the end, and the result is clamped to the array bounds. -/
def jsSliceTo (l : List α) (stop : Int) : List α :=
  l.take (if stop < 0 then (l.length + stop).toNat else stop.toNat)

/-- `getProductsByCategory(category, limit = null)`.  `if (limit)` tests JS
truthiness, so both `null` (`none`) and `0` skip the `slice`. -/
def getProductsByCategory (e : Env) (productsData : List Product)
    (category : List Char) (limit : Option Int) : List Product :=
  let products := (getAllActiveProducts e productsData).filter
    fun p => p.category == category
  match limit with
  | none => products
  | some k => if k = 0 then products else jsSliceTo products k

/-- The time value of `new Date(p.added_date)` used by the `sort` comparator
of `getRecentlyAddedProducts`.  A NaN time value (`none`) makes the
comparator inconsistent and the sort order implementation-defined
(ECMA-262); the model fixes NaN to `0`, which agrees with the engine
whenever every date parses. -/
def timeOf (e : Env) (p : Product) : Int :=
  (e.parseDate p.added_date).getD 0

/-- The comparator `(a, b) => dateB - dateA` of `getRecentlyAddedProducts`
as an order relation: `a` sorts no later than `b` iff the comparator is
non-positive, i.e. `b`'s date is no newer than `a`'s. -/
def recentLe (e : Env) (a b : Product) : Prop :=
  timeOf e b ≤ timeOf e a

instance (e : Env) : DecidableRel (recentLe e) :=
  fun a b => inferInstanceAs (Decidable (timeOf e b ≤ timeOf e a))

instance (e : Env) : IsTotal Product (recentLe e) :=
  ⟨fun a b => le_total (timeOf e b) (timeOf e a)⟩

instance (e : Env) : IsTrans Product (recentLe e) :=
  ⟨fun _ _ _ hab hbc => le_trans hbc hab⟩

/-- `getRecentlyAddedProducts(limit = 6)`: stable-sort the active products
by `added_date` descending, then `slice(0, limit)`.  (The in-place `sort`
acts on the fresh array returned by `filter`, not on the cache.) -/
def getRecentlyAddedProducts (e : Env) (productsData : List Product)
    (limit : Int) : List Product :=
  let activeProducts := getAllActiveProducts e productsData
  let sorted := activeProducts.insertionSort (recentLe e)
  jsSliceTo sorted limit

/-- `getFeaturedProducts`: the active products with `featured === 1`. -/
def getFeaturedProducts (e : Env) (productsData : List Product) : List Product :=
  (getAllActiveProducts e productsData).filter fun p => p.featured == 1

/-- `getAllCategories`: keep the categories whose `id` is in the `Set` of
categories of the active products. -/
def getAllCategories (e : Env) (productsData : List Product)
    (categoriesData : List Category) : List Category :=
  let activeProducts := getAllActiveProducts e productsData
  let categoriesWithProducts := activeProducts.map fun p => p.category
  categoriesData.filter fun cat => categoriesWithProducts.contains cat.id

/-- Strict lexicographic comparison of strings by code point, as used by the
default `Array.prototype.sort` comparator (UTF-16 code-unit order, which
agrees with code-point order on the basic multilingual plane). -/
def strLtB : List Char → List Char → Bool
  | [], [] => false
  | [], _ :: _ => true
  | _ :: _, [] => false
  | a :: as, b :: bs =>
    if a < b then true else if b < a then false else strLtB as bs

/-- The non-strict order for the default `sort()`. -/
def strLe (a b : List Char) : Prop := strLtB b a = false

instance : DecidableRel strLe :=
  fun a b => inferInstanceAs (Decidable (strLtB b a = false))

/-- `Set.add` for a `Set` that is later serialised with `Array.from`:
insertion order is kept and duplicates are dropped. -/
def addUnique (acc : List (List Char)) (t : List Char) : List (List Char) :=
  if t ∈ acc then acc else acc ++ [t]

/-- `getUniqueTags`: collect every tag of every product into a `Set`
(`product.tags && Array.isArray(product.tags)` — an absent tag list is
modelled as `[]`, which contributes nothing either way), then
`Array.from(set).sort()`. -/
def getUniqueTags (products : List Product) : List (List Char) :=
  (products.foldl (fun acc p => p.tags.foldl addUnique acc) []).insertionSort strLe

/-- `getUniqueSubCategories`: collect `product.sub_category` when truthy
(non-empty), then `Array.from(set).sort()`. -/
def getUniqueSubCategories (products : List Product) : List (List Char) :=
  (products.foldl
    (fun acc p => if p.sub_category.isEmpty then acc else addUnique acc p.sub_category)
    []).insertionSort strLe

/-- `String.prototype.toLowerCase`. -/
def lowerCh (s : List Char) : List Char := s.map Char.toLower

/-- `String.prototype.trim`: drop whitespace from both ends. -/
def trimCh (s : List Char) : List Char :=
  ((s.dropWhile Char.isWhitespace).reverse.dropWhile Char.isWhitespace).reverse

/-- Whether `pat` occurs at the start of `s`. -/
def startsWithCh : List Char → List Char → Bool
  | [], _ => true
  | _ :: _, [] => false
  | p :: ps, c :: cs => p == c && startsWithCh ps cs

/-- `String.prototype.includes`: `pat` occurs somewhere in `s`. -/
def hasSubstr : List Char → List Char → Bool
  | s, pat =>
    if startsWithCh pat s then true
    else
      match s with
      | [] => false
      | _ :: cs => hasSubstr cs pat

/-- The per-product match predicate of `searchProducts`. -/
def matchesSearch (searchTerm : List Char) (product : Product) : Bool :=
  hasSubstr (lowerCh product.name) searchTerm ||
  hasSubstr (lowerCh product.description) searchTerm ||
  hasSubstr (lowerCh product.category) searchTerm ||
  (!product.sub_category.isEmpty &&
    hasSubstr (lowerCh product.sub_category) searchTerm) ||
  product.tags.any fun tag => hasSubstr (lowerCh tag) searchTerm

/-- `searchProducts(query)`: return `[]` for a falsy or whitespace-only
query, otherwise filter the active products by the lowercased trimmed
query. -/
def searchProducts (e : Env) (productsData : List Product)
    (query : List Char) : List Product :=
  if query.isEmpty || (trimCh query).isEmpty then []
  else
    let searchTerm := trimCh (lowerCh query)
    (getAllActiveProducts e productsData).filter (matchesSearch searchTerm)

/-- `getRelatedProducts(productId, category, limit = 4)`.  The shuffle
`sort(() => 0.5 - Math.random())` uses an inconsistent comparator, so the
resulting permutation is implementation-defined; it is modelled by an
arbitrary Boolean comparator `rnd` supplied by the caller's environment. -/
def getRelatedProducts (e : Env) (rnd : Product → Product → Bool)
    (productsData : List Product) (productId category : List Char)
    (limit : Int) : List Product :=
  let categoryProducts := getProductsByCategory e productsData category none
  let relatedProducts := categoryProducts.filter fun p => !(p.id == productId)
  let shuffled := relatedProducts.insertionSort fun a b => rnd a b = true
  jsSliceTo shuffled limit

/-!
## State-passing versions of the query operations

Each query of `CaspianData` is translated as a state transformer
`DataState → result × DataState` whose final state records every write the
body performs to the module-level cache.  None of the nine query bodies
assigns `productsData`, `categoriesData` or `homeData`; the only in-place
mutations are the `Array.prototype.sort` calls in
`getRecentlyAddedProducts` and `getRelatedProducts`, and both act on fresh
arrays produced by `Array.prototype.filter`, never on the cached arrays
themselves.  The final state of each transformer is therefore the input
state, and the frame theorems below make that explicit.
-/

/-- State-passing `getAllActiveProducts`. -/
def getAllActiveProductsST (e : Env) (st : DataState) :
    List Product × DataState :=
  (getAllActiveProducts e st.productsData, st)

/-- State-passing `getProductById`. -/
def getProductByIdST (e : Env) (st : DataState) (id : List Char) :
    Option Product × DataState :=
  (getProductById e st.productsData id, st)

/-- State-passing `getProductsByCategory`. -/
def getProductsByCategoryST (e : Env) (st : DataState) (category : List Char)
    (limit : Option Int) : List Product × DataState :=
  (getProductsByCategory e st.productsData category limit, st)

/-- State-passing `getRecentlyAddedProducts`. -/
def getRecentlyAddedProductsST (e : Env) (st : DataState) (limit : Int) :
    List Product × DataState :=
  (getRecentlyAddedProducts e st.productsData limit, st)

/-- State-passing `getFeaturedProducts`. -/
def getFeaturedProductsST (e : Env) (st : DataState) :
    List Product × DataState :=
  (getFeaturedProducts e st.productsData, st)

/-- State-passing `getAllCategories`. -/
def getAllCategoriesST (e : Env) (st : DataState) :
    List Category × DataState :=
  (getAllCategories e st.productsData st.categoriesData, st)

/-- State-passing `getUniqueTags` (its `products` argument is supplied by
the caller; it reads no cache, so the state passes through). -/
def getUniqueTagsST (st : DataState) (products : List Product) :
    List (List Char) × DataState :=
  (getUniqueTags products, st)

/-- State-passing `getUniqueSubCategories`. -/
def getUniqueSubCategoriesST (st : DataState) (products : List Product) :
    List (List Char) × DataState :=
  (getUniqueSubCategories products, st)

/-- State-passing `searchProducts`. -/
def searchProductsST (e : Env) (st : DataState) (query : List Char) :
    List Product × DataState :=
  (searchProducts e st.productsData query, st)

/-- State-passing `getRelatedProducts`. -/
def getRelatedProductsST (e : Env) (rnd : Product → Product → Bool)
    (st : DataState) (productId category : List Char) (limit : Int) :
    List Product × DataState :=
  (getRelatedProducts e rnd st.productsData productId category limit, st)

/-!
## Sample data

Concrete inputs used to instantiate the theorems below on closed terms.
-/

/-- A sample environment whose date parser accepts every string, reading the
string's length as its time value (longer date string = newer). -/
def envW : Env :=
  ⟨0, 0, fun s => some (s.length : Int)⟩

/-- A sample environment whose date parser rejects every string (every
`new Date(s)` is an Invalid Date). -/
def envBad : Env :=
  ⟨0, 0, fun _ => none⟩

/-- A sample product: active, featured, no publish schedule. -/
def prodW1 : Product :=
  ⟨"p1".toList, "Alpha Bag".toList, "a roomy tote".toList, "bags".toList,
    "totes".toList, ["casual".toList], 1, 1, [], "ad1".toList⟩

/-- A second sample product: active, not featured, newer `added_date`. -/
def prodW2 : Product :=
  ⟨"p2".toList, "Beta Scarf".toList, "silk scarf".toList, "scarves".toList,
    [], [], 1, 0, [], "ad234".toList⟩

/-- An active product whose `publish_at` is a string no date parser
accepts. -/
def prodSched : Product :=
  ⟨"p3".toList, "Gamma Belt".toList, "leather belt".toList, "belts".toList,
    [], [], 1, 0, "not-a-date".toList, "ad12".toList⟩

/-- A sample category record matching `prodW1`. -/
def catW1 : Category :=
  ⟨"bags".toList, "Bags".toList⟩

/-- A sample cache state holding the two sample products. -/
def stW : DataState :=
  ⟨[prodW1, prodW2], [catW1], some ⟨"home".toList⟩, true⟩

/-!
## Helper lemmas
-/

/-- Membership in `getAllActiveProducts`: exactly the catalog products with
`active === 1` that pass `isProductPublished`. -/
theorem mem_getAllActiveProducts {e : Env} {pd : List Product} {p : Product} :
    p ∈ getAllActiveProducts e pd ↔
      p ∈ pd ∧ p.active = 1 ∧ isProductPublished e p = true := by
  simp [getAllActiveProducts, List.mem_filter, and_assoc]

/-- `slice(0, n)` for a natural `n` is `take n`. -/
theorem jsSliceTo_natCast (l : List α) (n : Nat) :
    jsSliceTo l (n : Int) = l.take n := by
  unfold jsSliceTo
  rw [if_neg (not_lt.mpr (Int.natCast_nonneg n)), Int.toNat_natCast]

/-- `trim` erases the whole string exactly when every character is
whitespace. -/
theorem trimCh_eq_nil_iff (s : List Char) :
    trimCh s = [] ↔ ∀ c ∈ s, c.isWhitespace = true := by
  unfold trimCh
  rw [List.reverse_eq_nil_iff, List.dropWhile_eq_nil_iff]
  constructor
  · intro h c hc
    have hsplit : c ∈ List.takeWhile Char.isWhitespace s ++
        List.dropWhile Char.isWhitespace s := by
      rw [List.takeWhile_append_dropWhile]; exact hc
    rcases List.mem_append.mp hsplit with h1 | h2
    · exact List.mem_takeWhile_imp h1
    · exact h c (List.mem_reverse.mpr h2)
  · intro h x hx
    exact h x (List.Sublist.mem (List.mem_reverse.mp hx)
      (List.dropWhile_sublist Char.isWhitespace))

/-- The emptiness guard of `searchProducts`
(`!query || query.trim() === ""`) holds exactly for whitespace-only
queries. -/
theorem whitespaceGuard (query : List Char) :
    (query.isEmpty || (trimCh query).isEmpty) = true ↔
      ∀ c ∈ query, c.isWhitespace = true := by
  rw [Bool.or_eq_true, List.isEmpty_iff, List.isEmpty_iff, trimCh_eq_nil_iff]
  constructor
  · rintro (rfl | h)
    · intro c hc; cases hc
    · exact h
  · exact Or.inr

/-- A successful `loadAllData` leaves the `dataLoaded` flag set. -/
theorem dataLoaded_of_loadAllData_true (st : DataState) (r : Bool × Bool × Bool)
    (p : Option (List Product)) (c : Option (List Category))
    (h : Option HomeData) :
    (loadAllData st r p c h).1 = true →
      (loadAllData st r p c h).2.1.dataLoaded = true := by
  unfold loadAllData
  split
  · intro _; simp_all
  split
  · intro hf; simp at hf
  split
  · intro hf; simp at hf
  split
  · intro hf; simp at hf
  split
  · intro hf; simp at hf
  intro _; rfl

/-- Once `dataLoaded` is set, `loadAllData` immediately returns `true`,
keeps the state, and performs no fetch. -/
theorem loadAllData_of_dataLoaded (st : DataState) (hl : st.dataLoaded = true)
    (r : Bool × Bool × Bool) (p : Option (List Product))
    (c : Option (List Category)) (h : Option HomeData) :
    loadAllData st r p c h = (true, st, false) := by
  unfold loadAllData
  simp [hl]

/-!
## Claim theorems
-/

/-- C2.  Active-products view: `getAllActiveProducts` returns exactly those
products of the loaded catalog whose `active` field equals 1 and for which
`isProductPublished` holds, in catalog order (a sublist of the catalog),
and no other products. -/
theorem getAllActiveProducts_spec (e : Env) (pd : List Product) :
    (∀ p, p ∈ getAllActiveProducts e pd ↔
      p ∈ pd ∧ p.active = 1 ∧ isProductPublished e p = true)
    ∧ List.Sublist (getAllActiveProducts e pd) pd :=
  ⟨fun _ => mem_getAllActiveProducts, List.filter_sublist _⟩

/-- C6.  Featured-products view: `getFeaturedProducts` returns exactly the
active, published products whose `featured` field equals 1, and its result
is a sublist of `getAllActiveProducts` (so every returned product also
appears there). -/
theorem getFeaturedProducts_spec (e : Env) (pd : List Product) :
    (∀ p, p ∈ getFeaturedProducts e pd ↔
      p ∈ pd ∧ p.active = 1 ∧ isProductPublished e p = true ∧ p.featured = 1)
    ∧ List.Sublist (getFeaturedProducts e pd) (getAllActiveProducts e pd) := by
  refine ⟨fun p => ?_, List.filter_sublist _⟩
  simp only [getFeaturedProducts, List.mem_filter, mem_getAllActiveProducts,
    beq_iff_eq]
  tauto

/-- C5.  Category rollup: `getAllCategories` returns exactly those entries
of the category catalog whose `id` is the `category` of at least one
active, published product, in catalog order (a sublist of the category
catalog). -/
theorem getAllCategories_spec (e : Env) (pd : List Product)
    (cd : List Category) :
    (∀ cat, cat ∈ getAllCategories e pd cd ↔
      cat ∈ cd ∧ ∃ p, p ∈ pd ∧ p.active = 1 ∧ isProductPublished e p = true
        ∧ p.category = cat.id)
    ∧ List.Sublist (getAllCategories e pd cd) cd := by
  refine ⟨fun cat => ?_, List.filter_sublist _⟩
  simp only [getAllCategories, List.mem_filter, List.elem_iff,
    List.mem_map, mem_getAllActiveProducts]
  tauto

/-- C9.  Visibility gating of product lookup: `getProductById` yields a
product exactly when the first catalog product with that id is active and
published; every non-`null` result is an active, published member of the
catalog carrying the requested id; and the lookup is `null` whenever no
product matches the id at all. -/
theorem getProductById_spec (e : Env) (pd : List Product) (id : List Char) :
    (∀ p, getProductById e pd id = some p ↔
      List.find? (fun q => q.id == id) pd = some p ∧ p.active = 1
        ∧ isProductPublished e p = true)
    ∧ (∀ p, getProductById e pd id = some p →
        p ∈ pd ∧ p.id = id ∧ p.active = 1 ∧ isProductPublished e p = true)
    ∧ (List.find? (fun q => q.id == id) pd = none →
        getProductById e pd id = none) := by
  have key : ∀ p, getProductById e pd id = some p ↔
      List.find? (fun q => q.id == id) pd = some p ∧ p.active = 1
        ∧ isProductPublished e p = true := by
    intro p
    unfold getProductById
    cases h : List.find? (fun q => q.id == id) pd with
    | none => simp
    | some q =>
      dsimp only
      split
      · rename_i hcond
        simp only [Bool.or_eq_true, bne_iff_ne, ne_eq,
          Bool.not_eq_true] at hcond
        constructor
        · intro hq; cases hq
        · rintro ⟨hq, ha, hp⟩
          cases hq
          rcases hcond with hne | hfalse
          · exact absurd ha hne
          · rw [hp] at hfalse; cases hfalse
      · rename_i hcond
        simp only [Bool.or_eq_true, bne_iff_ne, ne_eq, Bool.not_eq_true,
          not_or, not_not] at hcond
        obtain ⟨ha, hp⟩ := hcond
        constructor
        · intro hq
          cases hq
          exact ⟨rfl, ha, by simpa using hp⟩
        · rintro ⟨hq, _, _⟩
          cases hq
          rfl
  refine ⟨key, fun p hp => ?_, fun h => ?_⟩
  · rcases (key p).mp hp with ⟨hfind, ha, hpub⟩
    refine ⟨List.mem_of_find?_eq_some hfind, ?_, ha, hpub⟩
    have := List.find?_some hfind
    simpa [beq_iff_eq] using this
  · unfold getProductById
    rw [h]

/-- C9 witness: the lookup of `prodW1` by its id on a concrete catalog. -/
theorem getProductById_spec_witness :
    prodW1 ∈ [prodW1, prodW2] ∧ prodW1.id = "p1".toList ∧ prodW1.active = 1
      ∧ isProductPublished envW prodW1 = true :=
  (getProductById_spec envW [prodW1, prodW2] ("p1".toList)).2.1 prodW1 (by decide)

/-- C10.  Limit edge case of `getProductsByCategory`: a limit of `0` is
falsy in `if (limit)` and behaves exactly like the default `null`, giving
all active, published products of the category; a positive limit `n` gives
the first `n` of them in catalog order. -/
theorem getProductsByCategory_spec (e : Env) (pd : List Product)
    (c : List Char) :
    getProductsByCategory e pd c (some 0) = getProductsByCategory e pd c none
    ∧ (∀ p, p ∈ getProductsByCategory e pd c none ↔
        p ∈ pd ∧ p.active = 1 ∧ isProductPublished e p = true
          ∧ p.category = c)
    ∧ (∀ n : Nat, 0 < n → getProductsByCategory e pd c (some (n : Int)) =
        (getProductsByCategory e pd c none).take n) := by
  refine ⟨by simp [getProductsByCategory], fun p => ?_, fun n hn => ?_⟩
  · simp only [getProductsByCategory, List.mem_filter,
      mem_getAllActiveProducts, beq_iff_eq]
    tauto
  · have hz : ((n : Int) = 0) ↔ False := by
      simp [Nat.pos_iff_ne_zero.mp hn]
    simp only [getProductsByCategory, hz, if_false, jsSliceTo_natCast]

/-- C10 witness: a limit of `1` takes the first matching product. -/
theorem getProductsByCategory_spec_witness :
    getProductsByCategory envW [prodW1, prodW2] ("bags".toList)
        (some ((1 : Nat) : Int)) =
      (getProductsByCategory envW [prodW1, prodW2] ("bags".toList) none).take 1 :=
  (getProductsByCategory_spec envW [prodW1, prodW2] ("bags".toList)).2.2 1
    (by decide)

/-- C3.  Load-once memoization: after any call of `loadAllData` that
returned `true`, every later call returns `true`, performs no fetch
(third component `false`), and leaves the cached products, categories and
home data exactly as they were (the state is returned unchanged). -/
theorem loadAllData_spec (st : DataState) (r1 : Bool × Bool × Bool)
    (p1 : Option (List Product)) (c1 : Option (List Category))
    (h1 : Option HomeData)
    (hsucc : (loadAllData st r1 p1 c1 h1).1 = true) :
    ∀ (r2 : Bool × Bool × Bool) (p2 : Option (List Product))
      (c2 : Option (List Category)) (h2 : Option HomeData),
      loadAllData (loadAllData st r1 p1 c1 h1).2.1 r2 p2 c2 h2 =
        (true, (loadAllData st r1 p1 c1 h1).2.1, false) :=
  fun r2 p2 c2 h2 =>
    loadAllData_of_dataLoaded _
      (dataLoaded_of_loadAllData_true st r1 p1 c1 h1 hsucc) r2 p2 c2 h2

/-- C3 witness: a fresh successful load followed by a second call. -/
theorem loadAllData_spec_witness :
    loadAllData
        (loadAllData ⟨[], [], none, false⟩ (true, true, true) (some [prodW1])
          (some [catW1]) (some ⟨"home".toList⟩)).2.1
        (false, false, false) none none none =
      (true,
        (loadAllData ⟨[], [], none, false⟩ (true, true, true) (some [prodW1])
          (some [catW1]) (some ⟨"home".toList⟩)).2.1,
        false) :=
  loadAllData_spec ⟨[], [], none, false⟩ (true, true, true) (some [prodW1])
    (some [catW1]) (some ⟨"home".toList⟩) (by decide)
    (false, false, false) none none none

/-- C4.  Text search: a query that is empty or all whitespace yields `[]`;
otherwise `searchProducts` returns exactly the active, published products
whose lowercased name, description or category contains the lowercased
trimmed query, or whose non-empty `sub_category` contains it, or one of
whose tags contains it. -/
theorem searchProducts_spec (e : Env) (pd : List Product)
    (query : List Char) :
    ((∀ c ∈ query, c.isWhitespace = true) → searchProducts e pd query = [])
    ∧ (∀ p, p ∈ searchProducts e pd query ↔
        ¬ (∀ c ∈ query, c.isWhitespace = true)
        ∧ p ∈ pd ∧ p.active = 1 ∧ isProductPublished e p = true
        ∧ (hasSubstr (lowerCh p.name) (trimCh (lowerCh query)) = true
          ∨ hasSubstr (lowerCh p.description) (trimCh (lowerCh query)) = true
          ∨ hasSubstr (lowerCh p.category) (trimCh (lowerCh query)) = true
          ∨ (p.sub_category ≠ []
              ∧ hasSubstr (lowerCh p.sub_category) (trimCh (lowerCh query)) = true)
          ∨ (∃ t ∈ p.tags,
              hasSubstr (lowerCh t) (trimCh (lowerCh query)) = true))) := by
  by_cases hw : (query.isEmpty || (trimCh query).isEmpty) = true
  · have hq := (whitespaceGuard query).mp hw
    constructor
    · intro _
      simp [searchProducts, hw]
    · intro p
      rw [searchProducts, if_pos hw]
      simp only [List.not_mem_nil, false_iff]
      exact fun hc => hc.1 hq
  · have hq : ¬ ∀ c ∈ query, c.isWhitespace = true :=
      fun hh => hw ((whitespaceGuard query).mpr hh)
    constructor
    · intro hh; exact absurd hh hq
    · intro p
      rw [searchProducts, if_neg hw]
      simp only [List.mem_filter, mem_getAllActiveProducts, matchesSearch,
        Bool.or_eq_true, Bool.and_eq_true, Bool.not_eq_true',
        List.any_eq_true, List.isEmpty_eq_false, hq]
      tauto

/-- C4 witness: a whitespace-only query returns the empty list. -/
theorem searchProducts_spec_witness :
    searchProducts envW [prodW1, prodW2] (" ".toList) = [] :=
  (searchProducts_spec envW [prodW1, prodW2] (" ".toList)).1 (by decide)

/-- C7.  Recently-added ordering and limit: `getRecentlyAddedProducts n`
returns at most `n` products, all active and published; and — under the
precondition that every `added_date` in the catalog parses as a valid
date — the result is ordered from newest to oldest `added_date`, and no
omitted active published product has a newer `added_date` than any
returned product. -/
theorem getRecentlyAddedProducts_spec (e : Env) (pd : List Product) (n : Nat)
    (_hvalid : ∀ p ∈ pd, (e.parseDate p.added_date).isSome = true) :
    (getRecentlyAddedProducts e pd (n : Int)).length ≤ n
    ∧ (∀ p ∈ getRecentlyAddedProducts e pd (n : Int),
        p ∈ pd ∧ p.active = 1 ∧ isProductPublished e p = true)
    ∧ List.Pairwise (fun a b => timeOf e b ≤ timeOf e a)
        (getRecentlyAddedProducts e pd (n : Int))
    ∧ (∀ p, p ∈ pd → p.active = 1 → isProductPublished e p = true →
        p ∉ getRecentlyAddedProducts e pd (n : Int) →
        ∀ q ∈ getRecentlyAddedProducts e pd (n : Int),
          timeOf e p ≤ timeOf e q) := by
  have hres : getRecentlyAddedProducts e pd (n : Int) =
      ((getAllActiveProducts e pd).insertionSort (recentLe e)).take n := by
    unfold getRecentlyAddedProducts
    exact jsSliceTo_natCast _ n
  have hsorted : List.Pairwise (recentLe e)
      ((getAllActiveProducts e pd).insertionSort (recentLe e)) :=
    List.sorted_insertionSort (recentLe e) _
  refine ⟨?_, ?_, ?_, ?_⟩
  · rw [hres]
    exact List.length_take_le n _
  · intro p hp
    rw [hres] at hp
    have hp' : p ∈ (getAllActiveProducts e pd).insertionSort (recentLe e) :=
      List.Sublist.mem hp (List.take_sublist n _)
    exact mem_getAllActiveProducts.mp ((List.mem_insertionSort _).mp hp')
  · rw [hres]
    exact List.Pairwise.sublist (List.take_sublist n _) hsorted
  · intro p hpd hact hpub hnot q hq
    rw [hres] at hnot hq
    have hpL : p ∈ (getAllActiveProducts e pd).insertionSort (recentLe e) :=
      (List.mem_insertionSort _).mpr
        (mem_getAllActiveProducts.mpr ⟨hpd, hact, hpub⟩)
    have hpsplit : p ∈
        List.take n ((getAllActiveProducts e pd).insertionSort (recentLe e))
          ++ List.drop n
            ((getAllActiveProducts e pd).insertionSort (recentLe e)) := by
      rw [List.take_append_drop]
      exact hpL
    have hdrop : p ∈ List.drop n
        ((getAllActiveProducts e pd).insertionSort (recentLe e)) := by
      rcases List.mem_append.mp hpsplit with h | h
      · exact absurd h hnot
      · exact h
    have hsorted' : List.Pairwise (recentLe e)
        (List.take n ((getAllActiveProducts e pd).insertionSort (recentLe e))
          ++ List.drop n
            ((getAllActiveProducts e pd).insertionSort (recentLe e))) := by
      rw [List.take_append_drop]
      exact hsorted
    exact (List.pairwise_append.mp hsorted').2.2 q hq p hdrop

/-- C7 witness: the sample catalog with limit 1. -/
theorem getRecentlyAddedProducts_spec_witness :
    (getRecentlyAddedProducts envW [prodW1, prodW2] ((1 : Nat) : Int)).length
      ≤ 1 :=
  (getRecentlyAddedProducts_spec envW [prodW1, prodW2] 1 (by decide)).1

/-- C8.  Stateless per call: every query operation of `CaspianData` leaves
the cached `productsData`, `categoriesData` and `homeData` unchanged (its
final state is its input state), so a later call computes the same result
as it would on the untouched state. -/
theorem caspianData_stateless (e : Env) (rnd : Product → Product → Bool)
    (st : DataState) (id category query productId : List Char)
    (limitN : Int) (limitO : Option Int) (products : List Product) :
    (getAllActiveProductsST e st).2 = st
    ∧ (getProductByIdST e st id).2 = st
    ∧ (getProductsByCategoryST e st category limitO).2 = st
    ∧ (getRecentlyAddedProductsST e st limitN).2 = st
    ∧ (getFeaturedProductsST e st).2 = st
    ∧ (getAllCategoriesST e st).2 = st
    ∧ (getUniqueTagsST st products).2 = st
    ∧ (getUniqueSubCategoriesST st products).2 = st
    ∧ (searchProductsST e st query).2 = st
    ∧ (getRelatedProductsST e rnd st productId category limitN).2 = st
    ∧ (searchProductsST e (getRecentlyAddedProductsST e st limitN).2 query).1
        = (searchProductsST e st query).1
    ∧ (getProductByIdST e
          (getRelatedProductsST e rnd st productId category limitN).2 id).1
        = (getProductByIdST e st id).1 :=
  ⟨rfl, rfl, rfl, rfl, rfl, rfl, rfl, rfl, rfl, rfl, rfl, rfl⟩

/-- C1.  Scheduled-publish visibility.  The claim (and the source's own
fallback comment) says a product whose `publish_at` cannot be parsed is
visible; but `new Date` never throws — it yields an Invalid Date whose NaN
time value makes `currentIST >= publishTime` evaluate to `false` — so
`isProductPublished` returns `false` for `prodSched` (active, with an
unparseable non-empty `publish_at`) and `getAllActiveProducts` hides it
from every view. -/
theorem isProductPublished_invalid_publishAt_false :
    prodSched.publish_at ≠ [] ∧ prodSched.active = 1
    ∧ envBad.parseDate prodSched.publish_at = none
    ∧ isProductPublished envBad prodSched = false
    ∧ getAllActiveProducts envBad [prodSched] = [] :=
  ⟨by decide, by decide, rfl, rfl, rfl⟩

end Caspian
